import Mathlib

/-!
Verification of the email-campaign send pipeline
(`backend/features/campaigns/tasks.py`, `backend/core/template_service.py`,
`backend/core/tracking.py`, `App_starter/backend/core/email_service.py`,
`backend/features/campaigns/endpoints.py`, `backend/core/scheduler.py`).

The Python sources are shallowly embedded: strings are `String`/`List Char`,
dicts are association lists (first binding wins), database rows are
structures, and the per-recipient delivery/render outcomes are oracle
functions supplied as inputs.
-/

namespace EmailCampaign

/-! ## Python string primitives -/

/-- Python `str.lower()` (ASCII model, as used on error messages and URLs). -/
def pyLower (s : String) : String := String.mk (s.data.map Char.toLower)

/-- Boolean substring test on char lists. -/
def isInfixOfB (sub : List Char) : List Char → Bool
  | [] => sub.isEmpty
  | c :: rest => List.isPrefixOf sub (c :: rest) || isInfixOfB sub rest

/-- Python substring test `sub in s`. -/
def strContains (s sub : String) : Bool := isInfixOfB sub.data s.data

/-! ## Retry classifier (`tasks.py`, `should_retry_email`, lines 23-82) -/

/-- The permanent-error vocabulary from `should_retry_email`. -/
def permanent_errors : List String :=
  [ "invalid email"
  , "email address is invalid"
  , "domain not found"
  , "domain does not exist"
  , "user not found"
  , "mailbox not found"
  , "recipient address rejected"
  , "address rejected"
  , "does not exist"
  , "undeliverable"
  , "permanent failure" ]

/-- The temporary-error vocabulary from `should_retry_email`. -/
def temporary_errors : List String :=
  [ "timeout"
  , "temporary"
  , "try again"
  , "rate limit"
  , "mailbox full"
  , "quota exceeded"
  , "service unavailable"
  , "connection"
  , "network" ]

/-- `should_retry_email(error_message, retry_count, max_retries)` from
`tasks.py`: hard ceiling first, then the permanent vocabulary (false),
then the temporary vocabulary (true), defaulting to true. -/
def should_retry_email (error_message : String) (retry_count max_retries : Nat) : Bool :=
  if retry_count ≥ max_retries then
    false
  else
    let error_lower := pyLower error_message
    if permanent_errors.any (fun p => strContains error_lower p) then
      false
    else if temporary_errors.any (fun t => strContains error_lower t) then
      true
    else
      true

/-! ## Template renderer (`template_service.py`)

`TemplateService.extract_variables` collects the `\x7b\x7b(\s*[\w\.]+\s*)\x7d\x7d`
matches, strips, deduplicates and sorts them.  `TemplateService.render` first
assigns the empty string to every extracted variable that is missing from the
caller's `data` dict (mutating it), then renders the template; the rendering of
a `\x7b\x7bvar\x7d\x7d` placeholder is modelled as lookup in the (now complete)
dict, defaulting to the empty string.  Dicts are association lists where the
first binding wins and new keys are appended. -/

/-- The opening brace character. -/
def lbrace : Char := Char.ofNat 123

/-- The closing brace character. -/
def rbrace : Char := Char.ofNat 125

/-- Python regex class `\s` (ASCII part). -/
def isSpaceChar (c : Char) : Bool :=
  c.toNat == 32 || c.toNat == 9 || c.toNat == 10 || c.toNat == 11 ||
  c.toNat == 12 || c.toNat == 13

/-- Python regex class `[\w\.]` (ASCII part): word characters or a dot. -/
def isWordDotChar (c : Char) : Bool :=
  c.isAlphanum || c.toNat == 95 || c.toNat == 46

/-- Reading the placeholder pattern after an opening brace pair: optional
whitespace, a nonempty run of word-or-dot characters (the stripped variable
name), optional whitespace, then the two closing braces.  Returns the
variable name and the text after the match. -/
def parsePlaceholder (l : List Char) : Option (List Char × List Char) :=
  let l1 := l.dropWhile isSpaceChar
  let v := l1.takeWhile isWordDotChar
  if v.isEmpty then none
  else
    match (l1.dropWhile isWordDotChar).dropWhile isSpaceChar with
    | c1 :: c2 :: rest => if c1 == rbrace && c2 == rbrace then some (v, rest) else none
    | _ => none

/-- Leftmost non-overlapping scan for placeholders, advancing one character
when the pattern does not match (the fuel is an upper bound on the input
length, making the recursion structural). -/
def findPlaceholdersF : Nat → List Char → List (List Char)
  | 0, _ => []
  | _, [] => []
  | fuel+1, c :: rest =>
    if c == lbrace then
      match rest with
      | c2 :: rest2 =>
        if c2 == lbrace then
          match parsePlaceholder rest2 with
          | some (v, rem) => v :: findPlaceholdersF fuel rem
          | none => findPlaceholdersF fuel rest
        else findPlaceholdersF fuel rest
      | [] => []
    else findPlaceholdersF fuel rest

/-- All placeholder variable occurrences of a template, in order. -/
def findPlaceholders (l : List Char) : List (List Char) :=
  findPlaceholdersF l.length l

/-- Insertion into an ascending list of strings. -/
def insertSorted (x : String) : List String → List String
  | [] => [x]
  | y :: ys => if x < y then x :: y :: ys else y :: insertSorted x ys

/-- Ascending insertion sort on strings (Python `sorted`). -/
def sortStrings (l : List String) : List String := l.foldr insertSorted []

/-- `TemplateService.extract_variables`: the sorted deduplicated list of
placeholder variables. -/
def extract_variables (html_content : String) : List String :=
  sortStrings (((findPlaceholders html_content.data).map fun v => String.mk v).dedup)

/-- Placeholder substitution against a dict (the Jinja2 rendering of the
`\x7b\x7bvar\x7d\x7d` fragment used by campaign templates); a variable absent
from the dict renders as the empty string. -/
def substitutePlaceholdersF : Nat → List Char → List (String × String) → List Char
  | 0, l, _ => l
  | _, [], _ => []
  | fuel+1, c :: rest, data =>
    if c == lbrace then
      match rest with
      | c2 :: rest2 =>
        if c2 == lbrace then
          match parsePlaceholder rest2 with
          | some (v, rem) =>
              ((List.lookup (String.mk v) data).getD "").data ++
                substitutePlaceholdersF fuel rem data
          | none => c :: substitutePlaceholdersF fuel rest data
        else c :: substitutePlaceholdersF fuel rest data
      | [] => [c]
    else c :: substitutePlaceholdersF fuel rest data

/-- Result of `TemplateService.render`: the rendered output together with the
caller's data dict as it stands after the call (the source assigns
`data[var] = ""` for every missing variable before rendering). -/
structure RenderResult where
  output : String
  dataAfter : List (String × String)
deriving DecidableEq

/-- `TemplateService.render` from `template_service.py`, lines 42-55. -/
def render (html_content : String) (data : List (String × String)) : RenderResult :=
  let required_vars := extract_variables html_content
  let missing_vars := required_vars.filter (fun v => (List.lookup v data).isNone)
  let data2 := data ++ missing_vars.map (fun v => (v, ""))
  { output := String.mk
      (substitutePlaceholdersF html_content.data.length html_content.data data2)
  , dataAfter := data2 }

/-! ## Campaign send pipeline (`tasks.py`, `endpoints.py`, `scheduler.py`,
`App_starter/backend/core/email_service.py`)

Database rows are structures; the template/tracking step and the delivery
gateway are oracle functions supplied with each pass (rendering either
succeeds or raises; a delivery either succeeds or fails with an error
message, `EmailService.send_batch` never raises).  Timestamps are dropped;
the `metadata["retry_scheduled_at"]` backoff hint is modelled as the backoff
delay in minutes. -/

/-- Recipient status enum (`schemas.py` line 124). -/
inductive RecipientStatus
  | pending
  | sending
  | sent
  | failed
  | bounced
  | unsubscribed
deriving DecidableEq

/-- Campaign status enum (draft, scheduled, sending, paused, completed, failed). -/
inductive CampaignStatus
  | draft
  | scheduled
  | sending
  | paused
  | completed
  | failed
deriving DecidableEq

/-- A recipients-table row (the fields the send pipeline reads or writes). -/
structure Recipient where
  id : Nat
  email : String
  status : RecipientStatus
  retry_count : Nat
  error_message : Option String
  retry_backoff_minutes : Option Nat
deriving DecidableEq

/-- A campaigns-table row (the fields the send pipeline reads or writes). -/
structure Campaign where
  status : CampaignStatus
  total_recipients : Nat
  sent_count : Nat
  failed_count : Nat
deriving DecidableEq

/-- An email_logs row written by `log_email_event`. -/
structure EmailEvent where
  recipient_id : Nat
  email : String
  event_type : String
  error_message : Option String
deriving DecidableEq

/-- Request parameters and oracles of one `process_campaign_send` run:
`renderOk` says whether template rendering plus tracking injection succeeds
for a recipient id (lines 165-186); `sendResult` is the delivery outcome for
a recipient id, `none` meaning success and `some err` a failure carrying the
error message. -/
structure PassInput where
  test_mode : Bool
  test_emails : Option (List String)
  renderOk : Nat → Bool
  sendResult : Nat → Option String

/-- Python truthiness of the optional `test_emails` argument. -/
def testEmailsTruthy : Option (List String) → Bool
  | none => false
  | some l => !l.isEmpty

/-- Recipient selection (`tasks.py` lines 115-135): with `test_mode` and a
truthy `test_emails`, recipients are selected by email membership regardless
of their status; otherwise the recipients with status pending are selected. -/
def selectRecipients (test_mode : Bool) (test_emails : Option (List String))
    (recipients : List Recipient) : List Recipient :=
  if test_mode && testEmailsTruthy test_emails then
    recipients.filter (fun r => (test_emails.getD []).contains r.email)
  else
    recipients.filter (fun r => r.status == RecipientStatus.pending)

/-- Message preparation (lines 150-208): a recipient whose rendering raises
is skipped with a "failed" log event and no recipients-table update; the
others become the messages handed to `send_batch`, in order. -/
def renderPhase (renderOk : Nat → Bool) : List Recipient → List Recipient × List EmailEvent
  | [] => ([], [])
  | r :: rest =>
    let p := renderPhase renderOk rest
    if renderOk r.id then
      (r :: p.1, p.2)
    else
      (p.1,
       { recipient_id := r.id, email := r.email, event_type := "failed",
         error_message := some "Template rendering failed" } :: p.2)

/-- One iteration of the results loop (lines 231-303): the updated recipient
row, the increment applied to the pass-local `failed_count`, and the logged
event.  On failure the loop first increments `failed_count`, sets
`retry_count = recipient["retry_count"] + 1` and consults the classifier with
that incremented count; a retry reverts the status to pending and stores the
`2^(retry_count-1)`-minute backoff hint, otherwise the row becomes failed. -/
def processResult (max_retries : Nat) (r : Recipient) (res : Option String) :
    Recipient × Nat × EmailEvent :=
  match res with
  | none =>
      ({ r with status := RecipientStatus.sent }, 0,
       { recipient_id := r.id, email := r.email, event_type := "sent",
         error_message := none })
  | some error_msg =>
      let retry_count := r.retry_count + 1
      if should_retry_email error_msg retry_count max_retries then
        ({ r with status := RecipientStatus.pending
                , error_message := some ("Retry " ++ toString retry_count ++ "/" ++
                    toString max_retries ++ ": " ++ error_msg)
                , retry_count := retry_count
                , retry_backoff_minutes := some (2 ^ (retry_count - 1)) }, 1,
         { recipient_id := r.id, email := r.email, event_type := "failed",
           error_message := some error_msg })
      else
        ({ r with status := RecipientStatus.failed
                , error_message := some error_msg
                , retry_count := retry_count }, 1,
         { recipient_id := r.id, email := r.email, event_type := "failed",
           error_message := some error_msg })

/-- A supabase `update(...).eq("id", ...)` against the recipients table. -/
def updateById (rows : List Recipient) (upd : Recipient) : List Recipient :=
  rows.map (fun row => if row.id == upd.id then upd else row)

/-- The cumulative processed counts that `EmailService.send_batch` reports to
`on_progress` after each chunk (`email_service.py` lines 239-252); they count
processed messages, successes and failures alike, and `on_progress` stores
them into the campaign's `sent_count`. -/
def chunkProgress (batch_size total : Nat) : List Nat :=
  if batch_size == 0 then []
  else (List.range ((total + batch_size - 1) / batch_size)).map
    (fun k => min ((k + 1) * batch_size) total)

/-- The fold step of the results loop: apply `processResult`, write the row
back by id, accumulate the failed counter and the event log. -/
def passStep (max_retries : Nat) (acc : List Recipient × Nat × List EmailEvent)
    (mr : Recipient × Option String) : List Recipient × Nat × List EmailEvent :=
  let u := processResult max_retries mr.1 mr.2
  (updateById acc.1 u.1, acc.2.1 + u.2.1, acc.2.2 ++ [u.2.2])

/-- `process_campaign_send` (`tasks.py` lines 85-344): select targets, return
early as completed when none, prepare messages, send the batch, process the
results, and write the final campaign row (status completed, the pass-local
counters).  Returns the campaign row, the recipients table and the events
appended to email_logs. -/
def process_campaign_send (max_retries batch_size : Nat) (inp : PassInput)
    (campaign : Campaign) (recipients : List Recipient) :
    Campaign × List Recipient × List EmailEvent :=
  let selected := selectRecipients inp.test_mode inp.test_emails recipients
  if selected.isEmpty then
    ({ campaign with status := CampaignStatus.completed }, recipients, [])
  else
    let rp := renderPhase inp.renderOk selected
    let messages := rp.1
    let results := messages.map (fun m => (m, inp.sendResult m.id))
    let folded := results.foldl (passStep max_retries) (recipients, 0, [])
    let sent_count := (chunkProgress batch_size messages.length).getLastD 0
    ({ campaign with status := CampaignStatus.completed
                   , sent_count := sent_count
                   , failed_count := folded.2.1 },
     folded.1, rp.2 ++ folded.2.2)

/-- The externally visible pipeline state: the campaign row, the recipients
table, the queued background passes (FIFO) and the email_logs. -/
structure SystemState where
  campaign : Campaign
  recipients : List Recipient
  queue : List (Bool × Option (List String))
  events : List EmailEvent
deriving DecidableEq

/-- The pipeline operations of the claim: the send endpoint (which enqueues a
background pass), running a queued pass with its oracles, pause, schedule,
cancel-schedule, and the public unsubscribe endpoint. -/
inductive PipelineOp where
  | send (test_mode : Bool) (test_emails : Option (List String))
  | runPass (renderOk : Nat → Bool) (sendResult : Nat → Option String)
  | pause
  | schedule
  | cancelSchedule
  | unsubscribe (email : String)

/-- One operation against the pipeline state, `none` when the endpoint
rejects it.  Guards are those of `endpoints.py` (send: status in
draft/scheduled/paused and a nonzero recipient count, lines 700-743; pause:
conditional update on status sending, lines 746-765; schedule: status in
draft/paused and a nonzero recipient count, lines 772-812 with
`scheduler.schedule_campaign`; cancel: status scheduled) and the unsubscribe
endpoint updates only recipients in status pending or sending (lines
1085-1091). -/
def applyOp (max_retries batch_size : Nat) (s : SystemState) :
    PipelineOp → Option SystemState
  | PipelineOp.send tm te =>
    if s.campaign.status == CampaignStatus.draft ||
        s.campaign.status == CampaignStatus.scheduled ||
        s.campaign.status == CampaignStatus.paused then
      if s.campaign.total_recipients == 0 then none
      else
        some { s with campaign := { s.campaign with status := CampaignStatus.sending }
                    , queue := s.queue ++ [(tm, te)] }
    else none
  | PipelineOp.runPass renderOk sendResult =>
    match s.queue with
    | [] => none
    | req :: qrest =>
      let out := process_campaign_send max_retries batch_size
        { test_mode := req.1, test_emails := req.2,
          renderOk := renderOk, sendResult := sendResult }
        s.campaign s.recipients
      some { campaign := out.1, recipients := out.2.1, queue := qrest,
             events := s.events ++ out.2.2 }
  | PipelineOp.pause =>
    if s.campaign.status == CampaignStatus.sending then
      some { s with campaign := { s.campaign with status := CampaignStatus.paused } }
    else none
  | PipelineOp.schedule =>
    if s.campaign.status == CampaignStatus.draft ||
        s.campaign.status == CampaignStatus.paused then
      if s.campaign.total_recipients == 0 then none
      else some { s with campaign := { s.campaign with status := CampaignStatus.scheduled } }
    else none
  | PipelineOp.cancelSchedule =>
    if s.campaign.status == CampaignStatus.scheduled then
      some { s with campaign := { s.campaign with status := CampaignStatus.draft } }
    else none
  | PipelineOp.unsubscribe email =>
    some { s with recipients := s.recipients.map (fun r =>
      if r.email == email && (r.status == RecipientStatus.pending ||
          r.status == RecipientStatus.sending) then
        { r with status := RecipientStatus.unsubscribed }
      else r) }

/-- A sequence of pipeline operations, stopping at the first rejection. -/
def applyOps (max_retries batch_size : Nat) :
    SystemState → List PipelineOp → Option SystemState
  | s, [] => some s
  | s, op :: rest =>
    match applyOp max_retries batch_size s op with
    | some s2 => applyOps max_retries batch_size s2 rest
    | none => none

/-- An operation is a non-test-selection operation in state `s` when it is
anything but the run of a queued pass whose request has test mode with a
truthy test_emails list. -/
def NonTestOp (s : SystemState) : PipelineOp → Prop
  | PipelineOp.runPass _ _ =>
    match s.queue with
    | [] => True
    | req :: _ => ¬(req.1 = true ∧ testEmailsTruthy req.2 = true)
  | _ => True

/-! ## Tracking injector (`tracking.py`)

`generate_tracking_token` derives a sha256 hex digest from the campaign id,
the recipient id and a secret; the token, the two ids and the configured
`api_base_url` enter the produced URLs only as strings, so they are abstract
string parameters here.  The click pass is the
`re.sub(r'href=["\x27]([^"\x27]+)["\x27]', wrap_link, html)` rewrite; the
regex is embedded as a leftmost scan matching the literal `href=`, one quote
character, a nonempty run of non-quote characters, and one quote character. -/

/-- The two quote characters of the href regex character class. -/
def isQuote (c : Char) : Bool := c == Char.ofNat 34 || c == Char.ofNat 39

/-- The five characters of the literal `href=`. -/
def hrefLit : List Char := ['h', 'r', 'e', 'f', '=']

/-- Leftmost match of `href=` quote `[^quotes]+` quote at the head of the
text: the opening quote, the attribute value, the closing quote, the rest. -/
def tryMatch (s : List Char) : Option (Char × List Char × Char × List Char) :=
  if s.take 5 = hrefLit then
    match s.drop 5 with
    | [] => none
    | q1 :: rest0 =>
      if isQuote q1 then
        match rest0.dropWhile (fun c => !isQuote c) with
        | [] => none
        | q2 :: rest2 =>
          if (rest0.takeWhile (fun c => !isQuote c)).isEmpty then none
          else some (q1, rest0.takeWhile (fun c => !isQuote c), q2, rest2)
      else none
  else none

/-- Python `str.lower` over a char list. -/
def lowerChars (l : List Char) : List Char := l.map Char.toLower

/-- The skip test of `wrap_link` (`tracking.py` lines 110-114): mailto, tel,
javascript and anchor schemes, unsubscribe links, already-tracked links. -/
def skipUrl (url : List Char) : Bool :=
  List.isPrefixOf "mailto:".data url || List.isPrefixOf "tel:".data url ||
  List.isPrefixOf "javascript:".data url || List.isPrefixOf "#".data url ||
  isInfixOfB "unsubscribe".data (lowerChars url) ||
  isInfixOfB "track/click".data url

/-- Python `str.replace(old, new, 1)`. -/
def replaceFirst : List Char → List Char → List Char → List Char
  | [], old, new => if old.isEmpty then new else []
  | c :: rest, old, new =>
    if List.isPrefixOf old (c :: rest) then new ++ (c :: rest).drop old.length
    else c :: replaceFirst rest old new

/-- The `wrap_link` callback (lines 106-118) applied to a match
`href=` q1 u q2: special links are returned untouched, otherwise the first
occurrence of the URL inside the matched text is replaced by the tracking
URL. -/
def wrapLinkTag (tr : List Char → List Char) (q1 : Char) (u : List Char) (q2 : Char) :
    List Char :=
  let full_tag := hrefLit ++ q1 :: (u ++ [q2])
  if skipUrl u then full_tag else replaceFirst full_tag u (tr u)

/-- The `re.sub` click pass over the document (lines 121-125); the fuel is an
upper bound on the input length, making the recursion structural. -/
def hrefSubF (tr : List Char → List Char) : Nat → List Char → List Char
  | 0, l => l
  | _, [] => []
  | fuel+1, c :: rest =>
    match tryMatch (c :: rest) with
    | some (q1, u, q2, rest2) => wrapLinkTag tr q1 u q2 ++ hrefSubF tr fuel rest2
    | none => c :: hrefSubF tr fuel rest

/-- The click-tracking rewrite of the whole document. -/
def hrefSub (tr : List Char → List Char) (l : List Char) : List Char :=
  hrefSubF tr l.length l

/-- UTF-8 bytes of a code point (Python encodes URL parameters to UTF-8
before percent-encoding). -/
def utf8Bytes (n : Nat) : List Nat :=
  if n < 128 then [n]
  else if n < 2048 then [192 + n / 64, 128 + n % 64]
  else if n < 65536 then [224 + n / 4096, 128 + (n / 64) % 64, 128 + n % 64]
  else [240 + n / 262144, 128 + (n / 4096) % 64, 128 + (n / 64) % 64, 128 + n % 64]

/-- Uppercase hexadecimal digit. -/
def hexDigit (n : Nat) : Char := "0123456789ABCDEF".data.getD n 'X'

/-- Percent-encoding of one byte. -/
def percentByte (n : Nat) : List Char := ['%', hexDigit (n / 16), hexDigit (n % 16)]

/-- Python `urllib.parse.quote_plus` on one character: ASCII alphanumerics
and `_.-~` pass through, the space becomes `+`, everything else is
percent-encoded byte by byte. -/
def quotePlusChar (c : Char) : List Char :=
  if c.isAlphanum || c == '_' || c == '.' || c == '-' || c == '~' then [c]
  else if c == ' ' then ['+']
  else ((utf8Bytes c.toNat).map percentByte).flatten

/-- Python `urllib.parse.quote_plus` on a string. -/
def quotePlus (l : List Char) : List Char := (l.map quotePlusChar).flatten

/-- Python `urlencode({"c": cid, "r": rid, "t": token, "u": url})`. -/
def urlencodeParams (cid rid token : String) (u : List Char) : List Char :=
  "c=".data ++ quotePlus cid.data ++ "&r=".data ++ quotePlus rid.data ++
  "&t=".data ++ quotePlus token.data ++ "&u=".data ++ quotePlus u

/-- `wrap_url_for_tracking` (lines 58-76); the token stands for the
sha256-derived hex digest and `base` for `settings.api_base_url`. -/
def wrap_url_for_tracking (cid rid token base : String) (u : List Char) : List Char :=
  base.data ++ "/v1/track/click?".data ++ urlencodeParams cid rid token u

/-- `get_tracking_pixel_html` (lines 34-55) with its open-tracking URL. -/
def tracking_pixel_html (cid rid token base : String) : List Char :=
  "<img src=\x22".data ++
  (base.data ++ "/v1/track/open?".data ++
    ("c=".data ++ quotePlus cid.data ++ "&r=".data ++ quotePlus rid.data ++
     "&t=".data ++ quotePlus token.data)) ++
  "\x22 width=\x221\x22 height=\x221\x22 alt=\x22\x22 style=\x22display:none;\x22 />".data

/-- Case-insensitive `re.sub(r'</body>', pixel + '</body>', html, count=1)`. -/
def replaceBodyCI (pixel : List Char) : List Char → List Char
  | [] => []
  | c :: rest =>
    if lowerChars (List.take 7 (c :: rest)) = "</body>".data then
      pixel ++ "</body>".data ++ (c :: rest).drop 7
    else c :: replaceBodyCI pixel rest

/-- `inject_tracking_into_html` (lines 79-144): the click pass followed by
the open-tracking pixel insertion. -/
def inject_tracking_into_html (cid rid token base : String)
    (enable_click_tracking enable_open_tracking : Bool) (html : List Char) : List Char :=
  let m := if enable_click_tracking
    then hrefSub (wrap_url_for_tracking cid rid token base) html
    else html
  if enable_open_tracking then
    if isInfixOfB "</body>".data (lowerChars m) then
      replaceBodyCI (tracking_pixel_html cid rid token base) m
    else m ++ tracking_pixel_html cid rid token base
  else m

/-- The side condition of the idempotence theorem, checked along the same
scan as the rewrite: every wrapped (non-skipped) URL must not occur inside
the literal `href=`, so that the replace-first of `wrap_link` rewrites the
attribute value and not an earlier fragment of the matched text. -/
def goodHtmlF : Nat → List Char → Bool
  | 0, _ => true
  | _, [] => true
  | fuel+1, c :: rest =>
    match tryMatch (c :: rest) with
    | some (_, u, _, rest2) =>
      (skipUrl u || !isInfixOfB u hrefLit) && goodHtmlF fuel rest2
    | none => goodHtmlF fuel rest

/-- The side condition over the whole document. -/
def goodHtml (l : List Char) : Bool := goodHtmlF l.length l

end EmailCampaign

namespace EmailCampaign

/-! ## Theorems (retry classifier) -/

/-- C6: at or above the max-retry ceiling the classifier always answers false,
whatever the message says; in particular `should_retry(msg, N, N) = false`. -/
theorem should_retry_email_ceiling (msg : String) (retry_count max_retries : Nat)
    (h : max_retries ≤ retry_count) :
    should_retry_email msg retry_count max_retries = false := by
  simp [should_retry_email, h]

/-- Witness for C6 at `msg = "mailbox full"`, `retry_count = max_retries = 3`. -/
theorem should_retry_email_ceiling_witness :
    should_retry_email "mailbox full" 3 3 = false :=
  should_retry_email_ceiling "mailbox full" 3 3 (by decide)

/-- C7 counterexample: the message "timeout domain not found" contains the
transient keyword "timeout" and the classifier is below the ceiling, yet it
returns false (the permanent vocabulary is consulted first), refuting the
claim that every message containing "timeout" is retried. -/
theorem should_retry_email_transient_keyword_cex :
    strContains (pyLower "timeout domain not found") "timeout" = true ∧
    0 < 3 ∧ should_retry_email "timeout domain not found" 0 3 = false := by
  decide

/-- C7 amended: below the ceiling, a message containing one of the claim's
permanent keywords is never retried; a message containing one of the claim's
transient keywords is retried provided it contains none of the permanent
vocabulary; and a message matching neither vocabulary is retried by default. -/
theorem should_retry_email_keyword_partition (msg : String) (rc mr : Nat) (h : rc < mr) :
    (["invalid email", "domain not found", "mailbox not found", "address rejected"].any
        (fun k => strContains (pyLower msg) k) = true →
      should_retry_email msg rc mr = false)
    ∧ ((["timeout", "rate limit", "mailbox full"].any
          (fun k => strContains (pyLower msg) k) = true ∧
        permanent_errors.all (fun k => !strContains (pyLower msg) k) = true) →
      should_retry_email msg rc mr = true)
    ∧ ((permanent_errors.all (fun k => !strContains (pyLower msg) k) = true ∧
        temporary_errors.all (fun k => !strContains (pyLower msg) k) = true) →
      should_retry_email msg rc mr = true) := by
  have hnot : ¬ (rc ≥ mr) := Nat.not_le.mpr h
  refine ⟨?_, ?_, ?_⟩
  · intro hk
    rcases List.any_eq_true.mp hk with ⟨k, hkmem, hkc⟩
    have hperm : permanent_errors.any (fun p => strContains (pyLower msg) p) = true := by
      refine List.any_eq_true.mpr ⟨k, ?_, hkc⟩
      fin_cases hkmem <;> simp [permanent_errors]
    simp [should_retry_email, hnot, hperm]
  · rintro ⟨htemp, hpermall⟩
    have hperm : permanent_errors.any (fun p => strContains (pyLower msg) p) = false := by
      rw [List.any_eq_false]
      intro x hx
      have := List.all_eq_true.mp hpermall x hx
      simpa using this
    rcases List.any_eq_true.mp htemp with ⟨k, hkmem, hkc⟩
    have htmp : temporary_errors.any (fun t => strContains (pyLower msg) t) = true := by
      refine List.any_eq_true.mpr ⟨k, ?_, hkc⟩
      fin_cases hkmem <;> simp [temporary_errors]
    simp [should_retry_email, hnot, hperm, htmp]
  · rintro ⟨hpermall, htempall⟩
    have hperm : permanent_errors.any (fun p => strContains (pyLower msg) p) = false := by
      rw [List.any_eq_false]
      intro x hx
      simpa using List.all_eq_true.mp hpermall x hx
    simp [should_retry_email, hnot, hperm]

/-- Witness for C7 amended: applies the partition at the permanent keyword
"invalid email" with `retry_count = 0`, `max_retries = 3`. -/
theorem should_retry_email_keyword_partition_witness :
    should_retry_email "invalid email" 0 3 = false :=
  (should_retry_email_keyword_partition "invalid email" 0 3 (by decide)).1 (by decide)

/-! ## Theorems (template renderer) -/

/-- C8 counterexample: rendering the template "Hello \x7b\x7bx\x7d\x7d" with an
empty dict yields "Hello " (the missing placeholder becomes the empty string
after the literal space), not the "Hello !" stated by the claim. -/
theorem render_missing_key_example_cex :
    (render "Hello \x7b\x7bx\x7d\x7d" []).output = "Hello " ∧
    ("Hello " : String) ≠ "Hello !" := by
  decide

/-- C8 amended: for every dict in which the key "x" is absent, rendering
"Hello \x7b\x7bx\x7d\x7d" substitutes the empty string for the missing
placeholder and returns "Hello " (no exception path: `render` is total, the
missing key is assigned a default before rendering). -/
theorem render_missing_key_empty_substitution (data : List (String × String))
    (h : List.lookup "x" data = none) :
    (render "Hello \x7b\x7bx\x7d\x7d" data).output = "Hello " := by
  have hx : List.lookup "x"
      (data ++ (extract_variables "Hello \x7b\x7bx\x7d\x7d"
        |>.filter (fun v => (List.lookup v data).isNone)).map (fun v => (v, ""))) =
      some "" := by
    have hev : extract_variables "Hello \x7b\x7bx\x7d\x7d" = ["x"] := by decide
    rw [hev, List.lookup_append, h]
    simp [h]
  show (render "Hello \x7b\x7bx\x7d\x7d" data).output = "Hello "
  unfold render
  simp [substitutePlaceholdersF, parsePlaceholder, lbrace, rbrace, hx,
    isSpaceChar, isWordDotChar, String.ext_iff]

/-- Witness for C8 amended at the empty dict. -/
theorem render_missing_key_empty_substitution_witness :
    (render "Hello \x7b\x7bx\x7d\x7d" []).output = "Hello " :=
  render_missing_key_empty_substitution [] (by decide)

/-- C10 counterexample: rendering "Hello \x7b\x7bx\x7d\x7d" against the empty
dict adds the binding ("x", "") to the caller's dict, so the data mapping does
not come back unchanged. -/
theorem render_mutates_data_cex :
    (render "Hello \x7b\x7bx\x7d\x7d" []).dataAfter = [("x", "")] ∧
    [("x", "")] ≠ ([] : List (String × String)) := by
  decide

/-- C10 amended: `render` never removes or overwrites an existing binding of
the caller's dict, but it does append a binding `(v, "")` for every extracted
placeholder variable `v` that the dict lacks. -/
theorem render_appends_missing_keys (html : String) (data : List (String × String)) :
    ∃ ext : List (String × String),
      (render html data).dataAfter = data ++ ext ∧
      ∀ p ∈ ext, List.lookup p.1 data = none ∧ p.2 = "" := by
  refine ⟨((extract_variables html).filter
      (fun v => (List.lookup v data).isNone)).map (fun v => (v, "")), rfl, ?_⟩
  intro p hp
  rcases List.mem_map.mp hp with ⟨v, hv, rfl⟩
  refine ⟨?_, rfl⟩
  simpa using (List.mem_filter.mp hv).2

/-- Witness for C10 amended: at the template "Hello \x7b\x7bx\x7d\x7d" and the
empty dict, the appended bindings are missing keys bound to the empty string. -/
theorem render_appends_missing_keys_witness :
    List.lookup "x" ([] : List (String × String)) = none ∧ ("" : String) = "" := by
  obtain ⟨ext, hx, hall⟩ := render_appends_missing_keys "Hello \x7b\x7bx\x7d\x7d" []
  have hev : (render "Hello \x7b\x7bx\x7d\x7d" ([] : List (String × String))).dataAfter =
      [("x", "")] := by decide
  have hext : ext = [("x", "")] := by
    rw [hev] at hx
    simpa using hx.symm
  exact hall ("x", "") (by simp [hext])

/-! ## Theorems (send pipeline) -/

/-- C1 counterexample: a pass over one pending recipient whose delivery fails
with the transient error "timeout" re-queues the recipient (status pending,
retry_count 1, backoff hint `2^0 = 1` minute) exactly as the claim says, yet
the campaign's failed_count ends at 1, not 0: the code increments the
pass-local failed counter before consulting the retry classifier. -/
theorem retry_requeue_increments_failed_count_cex :
    (process_campaign_send 3 100
      { test_mode := false, test_emails := none,
        renderOk := fun _ => true, sendResult := fun _ => some "timeout" }
      { status := CampaignStatus.sending, total_recipients := 1,
        sent_count := 0, failed_count := 0 }
      [{ id := 0, email := "a@b.c", status := RecipientStatus.pending, retry_count := 0,
         error_message := none, retry_backoff_minutes := none }]).2.1 =
      [{ id := 0, email := "a@b.c", status := RecipientStatus.pending, retry_count := 1,
         error_message := some "Retry 1/3: timeout", retry_backoff_minutes := some 1 }] ∧
    (process_campaign_send 3 100
      { test_mode := false, test_emails := none,
        renderOk := fun _ => true, sendResult := fun _ => some "timeout" }
      { status := CampaignStatus.sending, total_recipients := 1,
        sent_count := 0, failed_count := 0 }
      [{ id := 0, email := "a@b.c", status := RecipientStatus.pending, retry_count := 0,
         error_message := none, retry_backoff_minutes := none }]).1.failed_count = 1 := by
  decide

/-- C1 amended: when a delivery fails and the classifier — consulted with the
already incremented retry count — judges the error retry-eligible, the
recipient reverts to pending, its retry_count grows by exactly 1, the
`2^(retry_count-1)`-minute backoff hint is stored and the attempt number is
recorded in error_message; but the pass-local failed counter IS incremented
by 1 for that recipient as well. -/
theorem retry_eligible_failure_requeues (max_retries : Nat) (r : Recipient) (e : String)
    (h : should_retry_email e (r.retry_count + 1) max_retries = true) :
    processResult max_retries r (some e) =
      ({ r with status := RecipientStatus.pending
              , error_message := some ("Retry " ++ toString (r.retry_count + 1) ++ "/" ++
                  toString max_retries ++ ": " ++ e)
              , retry_count := r.retry_count + 1
              , retry_backoff_minutes := some (2 ^ ((r.retry_count + 1) - 1)) }, 1,
       { recipient_id := r.id, email := r.email, event_type := "failed",
         error_message := some e }) := by
  simp [processResult, h]

/-- Witness for C1 amended at a fresh recipient and the error "timeout". -/
theorem retry_eligible_failure_requeues_witness :
    processResult 3
      { id := 0, email := "a@b.c", status := RecipientStatus.pending, retry_count := 0,
        error_message := none, retry_backoff_minutes := none } (some "timeout") =
      ({ id := 0, email := "a@b.c", status := RecipientStatus.pending, retry_count := 1,
         error_message := some "Retry 1/3: timeout", retry_backoff_minutes := some 1 }, 1,
       { recipient_id := 0, email := "a@b.c", event_type := "failed",
         error_message := some "timeout" }) :=
  (retry_eligible_failure_requeues 3
    { id := 0, email := "a@b.c", status := RecipientStatus.pending, retry_count := 0,
      error_message := none, retry_backoff_minutes := none } "timeout" (by decide)).trans
    (by decide)

/-- C2 failing run: a pass over a single pending recipient whose delivery
fails with the permanent error "invalid email" ends with sent_count = 1 and
failed_count = 1 — the processed count reported by `send_batch.on_progress`
is stored as sent_count while the failure also increments failed_count, so
the counter change is 2 over one recipient and the sum exceeds
total_recipients = 1. -/
theorem sent_count_counts_failures_eval :
    (process_campaign_send 3 100
      { test_mode := false, test_emails := none,
        renderOk := fun _ => true, sendResult := fun _ => some "invalid email" }
      { status := CampaignStatus.sending, total_recipients := 1,
        sent_count := 0, failed_count := 0 }
      [{ id := 0, email := "a@b.c", status := RecipientStatus.pending, retry_count := 0,
         error_message := none, retry_backoff_minutes := none }]).1 =
    { status := CampaignStatus.completed, total_recipients := 1,
      sent_count := 1, failed_count := 1 } := by
  decide

/-- C3 counterexample: with test_mode true and an empty test_emails list the
selection does not yield the empty set — the code's `if test_mode and
test_emails` is falsy, so it falls through to selecting the pending
recipients. -/
theorem test_mode_empty_list_selects_pending_cex :
    selectRecipients true (some [])
      [{ id := 0, email := "a@b.c", status := RecipientStatus.pending, retry_count := 0,
         error_message := none, retry_backoff_minutes := none }] =
      [{ id := 0, email := "a@b.c", status := RecipientStatus.pending, retry_count := 0,
         error_message := none, retry_backoff_minutes := none }] ∧
    [{ id := 0, email := "a@b.c", status := RecipientStatus.pending, retry_count := 0,
       error_message := none, retry_backoff_minutes := none }] ≠ ([] : List Recipient) := by
  decide

/-- C3 amended: with test_mode true and a nonempty test_emails list the
target set is exactly the recipients whose email belongs to the list (any
status); with test_mode false, or test_emails absent or empty, it is exactly
the recipients with status pending. -/
theorem selectRecipients_characterization (test_mode : Bool)
    (test_emails : Option (List String)) (recipients : List Recipient) :
    (∀ l, test_mode = true → test_emails = some l → l ≠ [] →
      ∀ r, r ∈ selectRecipients test_mode test_emails recipients ↔
        r ∈ recipients ∧ r.email ∈ l)
    ∧ ((test_mode = false ∨ test_emails = none ∨ test_emails = some []) →
      ∀ r, r ∈ selectRecipients test_mode test_emails recipients ↔
        r ∈ recipients ∧ r.status = RecipientStatus.pending) := by
  constructor
  · intro l htm hte hl r
    subst htm
    subst hte
    have htr : testEmailsTruthy (some l) = true := by
      simp [testEmailsTruthy, List.isEmpty_iff, hl]
    simp [selectRecipients, htr, List.mem_filter]
  · intro hcase r
    have hcond : (test_mode && testEmailsTruthy test_emails) = false := by
      rcases hcase with h | h | h <;> simp [h, testEmailsTruthy]
    simp [selectRecipients, hcond, List.mem_filter]

/-- Witness for C3 amended: a pending recipient whose email is in the
one-element test list is selected in test mode. -/
theorem selectRecipients_characterization_witness :
    { id := 0, email := "a@b.c", status := RecipientStatus.pending, retry_count := 0,
      error_message := none, retry_backoff_minutes := none : Recipient } ∈
      selectRecipients true (some ["a@b.c"])
        [{ id := 0, email := "a@b.c", status := RecipientStatus.pending, retry_count := 0,
           error_message := none, retry_backoff_minutes := none }] :=
  ((selectRecipients_characterization true (some ["a@b.c"])
      [{ id := 0, email := "a@b.c", status := RecipientStatus.pending, retry_count := 0,
         error_message := none, retry_backoff_minutes := none }]).1
    ["a@b.c"] rfl rfl (by decide) _).mpr (by simp)

/-- C4 failing run: a pass over one pending recipient whose template
rendering raises logs the "Template rendering failed" event and moves on, but
the recipients table is unchanged — the recipient stays pending instead of
becoming terminal-failed (the code's "Mark as failed" comment is not matched
by any status update), and the campaign still completes with both counters 0. -/
theorem render_failure_leaves_recipient_pending_eval :
    process_campaign_send 3 100
      { test_mode := false, test_emails := none,
        renderOk := fun _ => false, sendResult := fun _ => none }
      { status := CampaignStatus.sending, total_recipients := 1,
        sent_count := 0, failed_count := 0 }
      [{ id := 0, email := "a@b.c", status := RecipientStatus.pending, retry_count := 0,
         error_message := none, retry_backoff_minutes := none }] =
    ({ status := CampaignStatus.completed, total_recipients := 1,
       sent_count := 0, failed_count := 0 },
     [{ id := 0, email := "a@b.c", status := RecipientStatus.pending, retry_count := 0,
        error_message := none, retry_backoff_minutes := none }],
     [{ recipient_id := 0, email := "a@b.c", event_type := "failed",
        error_message := some "Template rendering failed" }]) := by
  decide

/-- Unfolding the render phase on a recipient whose rendering succeeds. -/
theorem renderPhase_cons_ok (ok : Nat → Bool) (r : Recipient) (rest : List Recipient)
    (h : ok r.id = true) :
    renderPhase ok (r :: rest) =
      (r :: (renderPhase ok rest).1, (renderPhase ok rest).2) := by
  simp [renderPhase, h]

/-- Unfolding the render phase on a recipient whose rendering raises. -/
theorem renderPhase_cons_fail (ok : Nat → Bool) (r : Recipient) (rest : List Recipient)
    (h : ok r.id = false) :
    renderPhase ok (r :: rest) =
      ((renderPhase ok rest).1,
       { recipient_id := r.id, email := r.email, event_type := "failed",
         error_message := some "Template rendering failed" } :: (renderPhase ok rest).2) := by
  simp [renderPhase, h]

/-- Every recipient produced by the render phase comes from its input list. -/
theorem renderPhase_subset (ok : Nat → Bool) :
    ∀ l : List Recipient, ∀ m ∈ (renderPhase ok l).1, m ∈ l := by
  intro l
  induction l with
  | nil => simp [renderPhase]
  | cons r rest ih =>
    intro m hm
    cases h : ok r.id with
    | true =>
      rw [renderPhase_cons_ok ok r rest h] at hm
      rcases List.mem_cons.mp hm with hm2 | hm2
      · simp [hm2]
      · exact List.mem_cons_of_mem _ (ih m hm2)
    | false =>
      rw [renderPhase_cons_fail ok r rest h] at hm
      exact List.mem_cons_of_mem _ (ih m hm)

/-- `processResult` never changes the recipient id. -/
theorem processResult_id (max_retries : Nat) (m : Recipient) (res : Option String) :
    (processResult max_retries m res).1.id = m.id := by
  cases res with
  | none => rfl
  | some e =>
    simp only [processResult]
    split <;> rfl

/-- Mapping a by-id replacement over the current rows preserves the original
sent rows, provided no sent row carries the replaced id. -/
theorem forall₂_update_preserve (u : Recipient) (uid : Nat) :
    ∀ {l acc : List Recipient},
      List.Forall₂ (fun r cur => r.status = RecipientStatus.sent → cur = r) l acc →
      (∀ r ∈ l, r.status = RecipientStatus.sent → r.id ≠ uid) →
      List.Forall₂ (fun r cur => r.status = RecipientStatus.sent → cur = r) l
        (acc.map (fun row => if row.id == uid then u else row)) := by
  intro l acc h
  induction h with
  | nil => intro _; simp
  | @cons a b l2 acc2 hP hrest ih =>
    intro hside
    simp only [List.map_cons]
    refine List.Forall₂.cons ?_ (ih (fun r hr => hside r (List.mem_cons_of_mem _ hr)))
    intro hsent
    have hb : b = a := hP hsent
    subst hb
    have hne : b.id ≠ uid := hside b (List.mem_cons_self b l2) hsent
    simp [hne]

/-- The results-loop fold preserves the original sent rows when no processed
message carries the id of a sent row. -/
theorem foldl_passStep_preserves_sent (max_retries : Nat) (orig : List Recipient) :
    ∀ (results : List (Recipient × Option String))
      (acc : List Recipient × Nat × List EmailEvent),
      List.Forall₂ (fun r cur => r.status = RecipientStatus.sent → cur = r) orig acc.1 →
      (∀ mr ∈ results, ∀ r ∈ orig, r.status = RecipientStatus.sent → r.id ≠ mr.1.id) →
      List.Forall₂ (fun r cur => r.status = RecipientStatus.sent → cur = r) orig
        (results.foldl (passStep max_retries) acc).1 := by
  intro results
  induction results with
  | nil =>
    intro acc h _
    simpa using h
  | cons mr rest ih =>
    intro acc h hside
    simp only [List.foldl_cons]
    apply ih
    · show List.Forall₂ _ orig (updateById acc.1 (processResult max_retries mr.1 mr.2).1)
      unfold updateById
      apply forall₂_update_preserve _ _ h
      intro r hr hsent
      rw [processResult_id]
      exact hside mr (List.mem_cons_self mr rest) r hr hsent
    · exact fun mr2 hmr2 => hside mr2 (List.mem_cons_of_mem _ hmr2)

/-- C5 counterexample: the reachable operation sequence
send(normal) → pause → send(test mode, the recipient's email) →
run first pass (delivery succeeds) → run second pass (delivery fails with
"invalid email") first moves the only recipient to sent and then moves it to
failed: the test-mode pass selects recipients by email regardless of status
and resurrects the sent recipient. -/
theorem sent_recipient_resurrected_cex :
    ((applyOps 3 100
        { campaign := { status := CampaignStatus.draft, total_recipients := 1,
                        sent_count := 0, failed_count := 0 }
        , recipients := [{ id := 0, email := "a@b.c", status := RecipientStatus.pending,
                           retry_count := 0, error_message := none,
                           retry_backoff_minutes := none }]
        , queue := [], events := [] }
        [PipelineOp.send false none, PipelineOp.pause,
         PipelineOp.send true (some ["a@b.c"]),
         PipelineOp.runPass (fun _ => true) (fun _ => none)]).map
      (fun s => s.recipients.map Recipient.status) = some [RecipientStatus.sent])
    ∧ ((applyOps 3 100
        { campaign := { status := CampaignStatus.draft, total_recipients := 1,
                        sent_count := 0, failed_count := 0 }
        , recipients := [{ id := 0, email := "a@b.c", status := RecipientStatus.pending,
                           retry_count := 0, error_message := none,
                           retry_backoff_minutes := none }]
        , queue := [], events := [] }
        [PipelineOp.send false none, PipelineOp.pause,
         PipelineOp.send true (some ["a@b.c"]),
         PipelineOp.runPass (fun _ => true) (fun _ => none),
         PipelineOp.runPass (fun _ => true) (fun _ => some "invalid email")]).map
      (fun s => s.recipients.map Recipient.status) = some [RecipientStatus.failed]) := by
  decide

/-- C5 amended: under every pipeline operation except running a queued pass
whose request is test mode with a truthy test_emails list, a recipient whose
status is sent keeps its row unchanged (assuming distinct recipient ids):
normal-mode passes select only pending recipients, unsubscribe touches only
pending or sending rows, and send/pause/schedule/cancel touch no recipient
row.  Only the test-mode selection, which picks recipients by email
regardless of status, can move a recipient out of sent. -/
theorem sent_preserved_by_non_test_ops (max_retries batch_size : Nat)
    (s s2 : SystemState) (op : PipelineOp)
    (hids : (s.recipients.map Recipient.id).Nodup)
    (hsafe : NonTestOp s op)
    (h : applyOp max_retries batch_size s op = some s2) :
    List.Forall₂ (fun r r2 => r.status = RecipientStatus.sent → r2 = r)
      s.recipients s2.recipients := by
  have hrefl : ∀ l : List Recipient,
      List.Forall₂ (fun r r2 => r.status = RecipientStatus.sent → r2 = r) l l :=
    fun l => List.forall₂_same.mpr (fun x _ _ => rfl)
  cases op with
  | send tm te =>
    simp only [applyOp] at h
    split at h
    · split at h
      · exact absurd h (by simp)
      · cases h
        exact hrefl _
    · exact absurd h (by simp)
  | pause =>
    simp only [applyOp] at h
    split at h
    · cases h
      exact hrefl _
    · exact absurd h (by simp)
  | schedule =>
    simp only [applyOp] at h
    split at h
    · split at h
      · exact absurd h (by simp)
      · cases h
        exact hrefl _
    · exact absurd h (by simp)
  | cancelSchedule =>
    simp only [applyOp] at h
    split at h
    · cases h
      exact hrefl _
    · exact absurd h (by simp)
  | unsubscribe email =>
    simp only [applyOp] at h
    cases h
    show List.Forall₂ _ s.recipients (s.recipients.map _)
    rw [List.forall₂_map_right_iff]
    apply List.forall₂_same.mpr
    intro r _ hsent
    simp [hsent]
  | runPass ro sr =>
    rcases hqueue : s.queue with _ | ⟨req, qrest⟩
    · simp only [applyOp, hqueue] at h
      exact Option.noConfusion h
    · simp only [applyOp, hqueue] at h
      cases h
      simp only [NonTestOp, hqueue] at hsafe
      have hcond : (req.1 && testEmailsTruthy req.2) = false := by
        by_cases hb : req.1 = true <;> by_cases ht : testEmailsTruthy req.2 = true <;>
          simp_all
      show List.Forall₂ _ s.recipients
        (process_campaign_send max_retries batch_size _ s.campaign s.recipients).2.1
      have hsel : selectRecipients req.1 req.2 s.recipients =
          s.recipients.filter (fun r => r.status == RecipientStatus.pending) := by
        simp [selectRecipients, hcond]
      simp only [process_campaign_send, hsel]
      split
      · exact hrefl _
      · apply foldl_passStep_preserves_sent max_retries s.recipients _ _ (hrefl _)
        intro mr hmr r hr hsent hid
        rcases List.mem_map.mp hmr with ⟨m, hmmem, rfl⟩
        have hmsel := renderPhase_subset _ _ m hmmem
        have hmfil := List.mem_filter.mp hmsel
        have hmpending : m.status = RecipientStatus.pending := by
          simpa using hmfil.2
        have hrm : r = m :=
          List.inj_on_of_nodup_map hids hr hmfil.1 hid
        rw [hrm, hmpending] at hsent
        exact absurd hsent (by decide)

/-- Witness for C5 amended: pausing a sending campaign with one sent
recipient leaves that recipient's row unchanged. -/
theorem sent_preserved_by_non_test_ops_witness :
    List.Forall₂ (fun r r2 : Recipient => r.status = RecipientStatus.sent → r2 = r)
      [{ id := 0, email := "a@b.c", status := RecipientStatus.sent, retry_count := 0,
         error_message := none, retry_backoff_minutes := none }]
      [{ id := 0, email := "a@b.c", status := RecipientStatus.sent, retry_count := 0,
         error_message := none, retry_backoff_minutes := none }] :=
  sent_preserved_by_non_test_ops 3 100
    { campaign := { status := CampaignStatus.sending, total_recipients := 1,
                    sent_count := 0, failed_count := 0 }
    , recipients := [{ id := 0, email := "a@b.c", status := RecipientStatus.sent,
                       retry_count := 0, error_message := none,
                       retry_backoff_minutes := none }]
    , queue := [], events := [] }
    { campaign := { status := CampaignStatus.paused, total_recipients := 1,
                    sent_count := 0, failed_count := 0 }
    , recipients := [{ id := 0, email := "a@b.c", status := RecipientStatus.sent,
                       retry_count := 0, error_message := none,
                       retry_backoff_minutes := none }]
    , queue := [], events := [] }
    PipelineOp.pause (by decide) trivial (by decide)

/-! ## Theorems (tracking injector) -/

/-- The Boolean substring test agrees with `List.IsInfix`. -/
theorem isInfixOfB_iff (sub l : List Char) : isInfixOfB sub l = true ↔ sub <:+: l := by
  induction l with
  | nil =>
    simp [isInfixOfB, List.isEmpty_iff, List.infix_nil]
  | cons c rest ih =>
    simp [isInfixOfB, ih, List.isPrefixOf_iff_prefix, List.infix_cons_iff]

/-- The head of a nonempty `dropWhile` result fails the predicate. -/
theorem dropWhile_head_false (p : Char → Bool) :
    ∀ (l : List Char) (b : Char) (t : List Char),
      List.dropWhile p l = b :: t → p b = false := by
  intro l
  induction l with
  | nil => intro b t h; simp [List.dropWhile] at h
  | cons a l2 ih =>
    intro b t h
    by_cases ha : p a
    · rw [List.dropWhile_cons_of_pos ha] at h
      exact ih b t h
    · rw [List.dropWhile_cons_of_neg ha] at h
      cases h
      exact Bool.not_eq_true _ ▸ (by simpa using ha)

/-- `takeWhile` over a block of passing elements followed by a failing one. -/
theorem takeWhile_append_stop (p : Char → Bool) (u : List Char) (q : Char) (z : List Char)
    (hu : ∀ c ∈ u, p c = true) (hq : p q = false) :
    (u ++ q :: z).takeWhile p = u := by
  induction u with
  | nil =>
    show (q :: z).takeWhile p = []
    rw [List.takeWhile_cons_of_neg (by simp [hq])]
  | cons a u2 ih =>
    have ha : p a = true := hu a (List.mem_cons_self a u2)
    simp only [List.cons_append, List.takeWhile_cons_of_pos ha]
    rw [ih (fun c hc => hu c (List.mem_cons_of_mem _ hc))]

/-- `dropWhile` over a block of passing elements followed by a failing one. -/
theorem dropWhile_append_stop (p : Char → Bool) (u : List Char) (q : Char) (z : List Char)
    (hu : ∀ c ∈ u, p c = true) (hq : p q = false) :
    (u ++ q :: z).dropWhile p = q :: z := by
  induction u with
  | nil =>
    show (q :: z).dropWhile p = q :: z
    rw [List.dropWhile_cons_of_neg (by simp [hq])]
  | cons a u2 ih =>
    have ha : p a = true := hu a (List.mem_cons_self a u2)
    simp only [List.cons_append, List.dropWhile_cons_of_pos ha]
    exact ih (fun c hc => hu c (List.mem_cons_of_mem _ hc))

/-- Structure of a successful href match. -/
theorem tryMatch_some_elim {s : List Char} {q1 q2 : Char} {u rest2 : List Char}
    (h : tryMatch s = some (q1, u, q2, rest2)) :
    s = hrefLit ++ q1 :: (u ++ q2 :: rest2) ∧ isQuote q1 = true ∧ isQuote q2 = true ∧
      u ≠ [] ∧ ∀ c ∈ u, isQuote c = false := by
  unfold tryMatch at h
  by_cases h5 : s.take 5 = hrefLit
  case neg => rw [if_neg h5] at h; exact absurd h (by simp)
  rw [if_pos h5] at h
  rcases hd : s.drop 5 with _ | ⟨qa, rest0⟩ <;> rw [hd] at h <;> dsimp only [] at h
  · exact absurd h (by simp)
  by_cases hq1 : isQuote qa = true
  case neg => rw [if_neg hq1] at h; exact absurd h (by simp)
  rw [if_pos hq1] at h
  rcases hdw : rest0.dropWhile (fun c => !isQuote c) with _ | ⟨qb, rest2b⟩ <;>
    rw [hdw] at h <;> dsimp only [] at h
  · exact absurd h (by simp)
  by_cases hne : (rest0.takeWhile (fun c => !isQuote c)).isEmpty = true
  case pos => rw [if_pos hne] at h; exact absurd h (by simp)
  rw [if_neg hne] at h
  simp only [Option.some.injEq, Prod.mk.injEq] at h
  obtain ⟨rfl, rfl, rfl, rfl⟩ := h
  refine ⟨?_, hq1, ?_, ?_, ?_⟩
  · have hsplit : s = s.take 5 ++ s.drop 5 := (List.take_append_drop 5 s).symm
    rw [hsplit, h5, hd]
    have hrest0 : rest0 = rest0.takeWhile (fun c => !isQuote c) ++
        rest0.dropWhile (fun c => !isQuote c) :=
      (List.takeWhile_append_dropWhile _ _).symm
    rw [show qa :: rest0 = qa :: (rest0.takeWhile (fun c => !isQuote c) ++
        rest0.dropWhile (fun c => !isQuote c)) by rw [← hrest0], hdw]
  · have := dropWhile_head_false (fun c => !isQuote c) rest0 qb rest2b hdw
    simpa using this
  · intro hnil
    rw [hnil] at hne
    simp at hne
  · intro c hc
    have := List.mem_takeWhile_imp hc
    simpa using this

/-- Building a successful href match from its parts. -/
theorem tryMatch_build (q1 q2 : Char) (u z : List Char)
    (hq1 : isQuote q1 = true) (hq2 : isQuote q2 = true) (hu : u ≠ [])
    (hnoq : ∀ c ∈ u, isQuote c = false) :
    tryMatch (hrefLit ++ q1 :: (u ++ q2 :: z)) = some (q1, u, q2, z) := by
  have htake : (hrefLit ++ q1 :: (u ++ q2 :: z)).take 5 = hrefLit := by
    rw [show (5 : Nat) = hrefLit.length from rfl]
    exact List.take_left _ _
  have hdrop : (hrefLit ++ q1 :: (u ++ q2 :: z)).drop 5 = q1 :: (u ++ q2 :: z) := by
    rw [show (5 : Nat) = hrefLit.length from rfl]
    exact List.drop_left _ _
  have htw : (u ++ q2 :: z).takeWhile (fun c => !isQuote c) = u :=
    takeWhile_append_stop _ u q2 z (fun c hc => by simp [hnoq c hc]) (by simp [hq2])
  have hdw : (u ++ q2 :: z).dropWhile (fun c => !isQuote c) = q2 :: z :=
    dropWhile_append_stop _ u q2 z (fun c hc => by simp [hnoq c hc]) (by simp [hq2])
  simp only [tryMatch, htake, hdrop, hq1, htw, hdw, if_true]
  simp [List.isEmpty_iff, hu]

/-- Length bookkeeping of a successful match. -/
theorem tryMatch_some_length {s : List Char} {q1 q2 : Char} {u rest2 : List Char}
    (h : tryMatch s = some (q1, u, q2, rest2)) :
    s.length = 7 + u.length + rest2.length ∧ 1 ≤ u.length := by
  obtain ⟨hs, _, _, hu, _⟩ := tryMatch_some_elim h
  constructor
  · rw [hs]
    simp [hrefLit, List.length_append]
    omega
  · cases u with
    | nil => exact absurd rfl hu
    | cons a u2 => simp

/-- Unfolding the click pass at a non-match head. -/
theorem hrefSubF_succ_none (tr : List Char → List Char) (f : Nat) (c : Char)
    (rest : List Char) (h : tryMatch (c :: rest) = none) :
    hrefSubF tr (f+1) (c :: rest) = c :: hrefSubF tr f rest := by
  simp only [hrefSubF, h]

/-- Unfolding the click pass at a match head. -/
theorem hrefSubF_succ_some (tr : List Char → List Char) (f : Nat) (c : Char)
    (rest : List Char) (q1 q2 : Char) (u rest2 : List Char)
    (h : tryMatch (c :: rest) = some (q1, u, q2, rest2)) :
    hrefSubF tr (f+1) (c :: rest) = wrapLinkTag tr q1 u q2 ++ hrefSubF tr f rest2 := by
  simp only [hrefSubF, h]

/-- The fuel argument of the click pass is irrelevant above the length. -/
theorem hrefSubF_congr (tr : List Char → List Char) :
    ∀ (f g : Nat) (l : List Char), l.length ≤ f → l.length ≤ g →
      hrefSubF tr f l = hrefSubF tr g l := by
  intro f
  induction f with
  | zero =>
    intro g l hf _
    have : l = [] := List.length_eq_zero.mp (Nat.le_zero.mp hf)
    subst this
    cases g <;> rfl
  | succ f ih =>
    intro g l hf hg
    cases l with
    | nil => cases g <;> rfl
    | cons c rest =>
      cases g with
      | zero => exact absurd hg (by simp)
      | succ g =>
        cases htm : tryMatch (c :: rest) with
        | none =>
          rw [hrefSubF_succ_none tr f c rest htm, hrefSubF_succ_none tr g c rest htm]
          have hr : rest.length ≤ f := by simpa using hf
          have hr2 : rest.length ≤ g := by simpa using hg
          rw [ih g rest hr hr2]
        | some x =>
          obtain ⟨q1, u, q2, rest2⟩ := x
          rw [hrefSubF_succ_some tr f c rest q1 q2 u rest2 htm,
            hrefSubF_succ_some tr g c rest q1 q2 u rest2 htm]
          obtain ⟨hlen, hule⟩ := tryMatch_some_length htm
          have hl : (c :: rest).length = rest.length + 1 := rfl
          rw [ih g rest2 (by omega) (by omega)]

/-- Unfolding the click rewrite at a non-match head. -/
theorem hrefSub_cons_none (tr : List Char → List Char) (c : Char) (rest : List Char)
    (h : tryMatch (c :: rest) = none) :
    hrefSub tr (c :: rest) = c :: hrefSub tr rest := by
  show hrefSubF tr (rest.length + 1) (c :: rest) = _
  rw [hrefSubF_succ_none tr rest.length c rest h]
  rfl

/-- Unfolding the click rewrite at a match head. -/
theorem hrefSub_cons_some (tr : List Char → List Char) (c : Char) (rest : List Char)
    (q1 q2 : Char) (u rest2 : List Char)
    (h : tryMatch (c :: rest) = some (q1, u, q2, rest2)) :
    hrefSub tr (c :: rest) = wrapLinkTag tr q1 u q2 ++ hrefSub tr rest2 := by
  show hrefSubF tr (rest.length + 1) (c :: rest) = _
  rw [hrefSubF_succ_some tr rest.length c rest q1 q2 u rest2 h]
  obtain ⟨hlen, hule⟩ := tryMatch_some_length h
  have hl : (c :: rest).length = rest.length + 1 := rfl
  congr 1
  exact hrefSubF_congr tr rest.length rest2.length rest2 (by omega) (le_refl _)

/-- Unfolding the scan condition at a non-match head. -/
theorem goodHtmlF_succ_none (f : Nat) (c : Char) (rest : List Char)
    (h : tryMatch (c :: rest) = none) :
    goodHtmlF (f+1) (c :: rest) = goodHtmlF f rest := by
  simp only [goodHtmlF, h]

/-- Unfolding the scan condition at a match head. -/
theorem goodHtmlF_succ_some (f : Nat) (c : Char) (rest : List Char)
    (q1 q2 : Char) (u rest2 : List Char)
    (h : tryMatch (c :: rest) = some (q1, u, q2, rest2)) :
    goodHtmlF (f+1) (c :: rest) =
      ((skipUrl u || !isInfixOfB u hrefLit) && goodHtmlF f rest2) := by
  simp only [goodHtmlF, h]

/-- The fuel argument of the scan condition is irrelevant above the length. -/
theorem goodHtmlF_congr :
    ∀ (f g : Nat) (l : List Char), l.length ≤ f → l.length ≤ g →
      goodHtmlF f l = goodHtmlF g l := by
  intro f
  induction f with
  | zero =>
    intro g l hf _
    have : l = [] := List.length_eq_zero.mp (Nat.le_zero.mp hf)
    subst this
    cases g <;> rfl
  | succ f ih =>
    intro g l hf hg
    cases l with
    | nil => cases g <;> rfl
    | cons c rest =>
      cases g with
      | zero => exact absurd hg (by simp)
      | succ g =>
        cases htm : tryMatch (c :: rest) with
        | none =>
          rw [goodHtmlF_succ_none f c rest htm, goodHtmlF_succ_none g c rest htm]
          exact ih g rest (by simpa using hf) (by simpa using hg)
        | some x =>
          obtain ⟨q1, u, q2, rest2⟩ := x
          rw [goodHtmlF_succ_some f c rest q1 q2 u rest2 htm,
            goodHtmlF_succ_some g c rest q1 q2 u rest2 htm]
          obtain ⟨hlen, hule⟩ := tryMatch_some_length htm
          have hl : (c :: rest).length = rest.length + 1 := rfl
          rw [ih g rest2 (by omega) (by omega)]

/-- Unfolding the scan condition of the whole document, non-match head. -/
theorem goodHtml_cons_none (c : Char) (rest : List Char)
    (h : tryMatch (c :: rest) = none) :
    goodHtml (c :: rest) = goodHtml rest := by
  show goodHtmlF (rest.length + 1) (c :: rest) = _
  rw [goodHtmlF_succ_none rest.length c rest h]
  rfl

/-- Unfolding the scan condition of the whole document, match head. -/
theorem goodHtml_cons_some (c : Char) (rest : List Char) (q1 q2 : Char)
    (u rest2 : List Char) (h : tryMatch (c :: rest) = some (q1, u, q2, rest2)) :
    goodHtml (c :: rest) =
      ((skipUrl u || !isInfixOfB u hrefLit) && goodHtml rest2) := by
  show goodHtmlF (rest.length + 1) (c :: rest) = _
  rw [goodHtmlF_succ_some rest.length c rest q1 q2 u rest2 h]
  obtain ⟨hlen, hule⟩ := tryMatch_some_length h
  have hl : (c :: rest).length = rest.length + 1 := rfl
  congr 1
  exact goodHtmlF_congr rest.length rest2.length rest2 (by omega) (le_refl _)

/-- No match can start at a character other than an h. -/
theorem tryMatch_none_of_head (c : Char) (t : List Char) (hc : c ≠ 'h') :
    tryMatch (c :: t) = none := by
  have h5 : ¬ ((c :: t).take 5 = hrefLit) := by
    intro he
    rw [List.take_succ_cons] at he
    simp only [hrefLit, List.cons.injEq] at he
    exact hc he.1
  unfold tryMatch
  rw [if_neg h5]

/-- The click rewrite walks over a character other than an h. -/
theorem hrefSub_cons_of_ne (tr : List Char → List Char) (c : Char) (t : List Char)
    (hc : c ≠ 'h') : hrefSub tr (c :: t) = c :: hrefSub tr t :=
  hrefSub_cons_none tr c t (tryMatch_none_of_head c t hc)

/-- The scan condition walks over a character other than an h. -/
theorem goodHtml_cons_of_ne (c : Char) (t : List Char) (hc : c ≠ 'h') :
    goodHtml (c :: t) = goodHtml t :=
  goodHtml_cons_none c t (tryMatch_none_of_head c t hc)

/-- A quote character is not an h. -/
theorem quote_ne_h (q : Char) (hq : isQuote q = true) : q ≠ 'h' := by
  intro he
  subst he
  simp [isQuote] at hq

/-- No match starts inside quote-free text. -/
theorem tryMatch_none_of_no_quote (c : Char) (rest : List Char)
    (h : ∀ x ∈ c :: rest, isQuote x = false) : tryMatch (c :: rest) = none := by
  cases htm : tryMatch (c :: rest) with
  | none => rfl
  | some x =>
    obtain ⟨q1, u, q2, rest2⟩ := x
    obtain ⟨hs, hq1, _, _, _⟩ := tryMatch_some_elim htm
    have hmem : q1 ∈ c :: rest := by rw [hs]; simp
    exact absurd (h q1 hmem) (by simp [hq1])

/-- The click rewrite is the identity on quote-free text. -/
theorem hrefSub_of_no_quote (tr : List Char → List Char) :
    ∀ l : List Char, (∀ x ∈ l, isQuote x = false) → hrefSub tr l = l := by
  intro l
  induction l with
  | nil => intro _; rfl
  | cons c rest ih =>
    intro h
    rw [hrefSub_cons_none tr c rest (tryMatch_none_of_no_quote c rest h)]
    rw [ih (fun x hx => h x (List.mem_cons_of_mem _ hx))]

/-- A nonempty quote-free URL that is not a fragment of the literal `href=`
is not a prefix of any text made of a piece of `href=` followed by a quote. -/
theorem not_prefix_through_quote (u pre : List Char) (qc : Char) (tail : List Char)
    (_hu : u ≠ []) (hnoq : ∀ c ∈ u, isQuote c = false) (hq : isQuote qc = true)
    (hpre : pre <:+: hrefLit) (hni : isInfixOfB u hrefLit = false) :
    List.isPrefixOf u (pre ++ qc :: tail) = false := by
  by_contra hcon
  have hpref : u <+: pre ++ qc :: tail := by
    rw [← List.isPrefixOf_iff_prefix]
    simpa using hcon
  rcases le_or_lt u.length pre.length with hle | hlt
  · have h1 : u = (pre ++ qc :: tail).take u.length := by
      obtain ⟨t, ht⟩ := hpref
      rw [← ht, List.take_left]
    have h2 : (pre ++ qc :: tail).take u.length = pre.take u.length :=
      List.take_append_of_le_length hle
    have h3 : u <+: pre := by
      rw [h1, h2]
      exact List.take_prefix _ _
    exact absurd ((isInfixOfB_iff u hrefLit).mpr (h3.isInfix.trans hpre))
      (by simp [hni])
  · obtain ⟨t, ht⟩ := hpref
    have hget : (u ++ t)[pre.length]? = u[pre.length]? := List.getElem?_append_left hlt
    have hget2 : (pre ++ qc :: tail)[pre.length]? = some qc := by
      rw [List.getElem?_append_right (le_refl _)]
      simp
    rw [ht, hget2] at hget
    have hmem : qc ∈ u := by
      apply List.get?_mem
      rw [List.get?_eq_getElem?]
      exact hget.symm
    exact absurd (hnoq qc hmem) (by simp [hq])

/-- Stepping the replace-first over a position where the URL does not occur. -/
theorem replaceFirst_skip_cons (c : Char) (rest old new : List Char)
    (h : List.isPrefixOf old (c :: rest) = false) :
    replaceFirst (c :: rest) old new = c :: replaceFirst rest old new := by
  simp [replaceFirst, h]

/-- Replace-first at the position of the occurrence. -/
theorem replaceFirst_head (old tail new : List Char) (hold : old ≠ []) :
    replaceFirst (old ++ tail) old new = new ++ tail := by
  cases old with
  | nil => exact absurd rfl hold
  | cons a o =>
    have hpref : List.isPrefixOf (a :: o) (a :: (o ++ tail)) = true := by
      rw [List.isPrefixOf_iff_prefix]
      exact ⟨tail, by simp⟩
    show replaceFirst (a :: (o ++ tail)) (a :: o) new = new ++ tail
    simp only [replaceFirst, hpref, if_true]
    simp [List.drop_left]

/-- The replace-first of `wrap_link` rewrites exactly the attribute value
when the URL is not a fragment of the literal `href=`. -/
theorem replaceFirst_wrap (u T : List Char) (q1 q2 : Char) (hu : u ≠ [])
    (hnoq : ∀ c ∈ u, isQuote c = false) (hq1 : isQuote q1 = true)
    (hni : isInfixOfB u hrefLit = false) :
    replaceFirst (hrefLit ++ q1 :: (u ++ [q2])) u T = hrefLit ++ q1 :: (T ++ [q2]) := by
  have np : ∀ pre : List Char, pre <:+: hrefLit →
      List.isPrefixOf u (pre ++ q1 :: (u ++ [q2])) = false :=
    fun pre hpre => not_prefix_through_quote u pre q1 (u ++ [q2]) hu hnoq hq1 hpre hni
  have np0 := np hrefLit (List.infix_refl _)
  have np1 := np ['r', 'e', 'f', '='] (by decide)
  have np2 := np ['e', 'f', '='] (by decide)
  have np3 := np ['f', '='] (by decide)
  have np4 := np ['='] (by decide)
  have np5 := np [] (by decide)
  show replaceFirst
    ('h' :: ('r' :: ('e' :: ('f' :: ('=' :: (q1 :: (u ++ [q2]))))))) u T = _
  rw [replaceFirst_skip_cons 'h' _ u T (by simpa using np0),
      replaceFirst_skip_cons 'r' _ u T (by simpa using np1),
      replaceFirst_skip_cons 'e' _ u T (by simpa using np2),
      replaceFirst_skip_cons 'f' _ u T (by simpa using np3),
      replaceFirst_skip_cons '=' _ u T (by simpa using np4),
      replaceFirst_skip_cons q1 _ u T (by simpa using np5),
      replaceFirst_head u [q2] T hu]
  rfl

/-- The matched text of a skipped link is returned untouched. -/
theorem wrapLinkTag_skip (tr : List Char → List Char) (q1 q2 : Char) (u : List Char)
    (h : skipUrl u = true) :
    wrapLinkTag tr q1 u q2 = hrefLit ++ q1 :: (u ++ [q2]) := by
  simp [wrapLinkTag, h]

/-- The matched text of a wrapped link, under the scan condition. -/
theorem wrapLinkTag_wrap (tr : List Char → List Char) (q1 q2 : Char) (u : List Char)
    (hskip : skipUrl u = false) (hu : u ≠ [])
    (hnoq : ∀ c ∈ u, isQuote c = false) (hq1 : isQuote q1 = true)
    (hni : isInfixOfB u hrefLit = false) :
    wrapLinkTag tr q1 u q2 = hrefLit ++ q1 :: (tr u ++ [q2]) := by
  simp only [wrapLinkTag, hskip, Bool.false_eq_true, if_false]
  exact replaceFirst_wrap u (tr u) q1 q2 hu hnoq hq1 hni

/-- Take 5 over `href=` followed by anything. -/
theorem take5_hrefLit_append (X : List Char) : (hrefLit ++ X).take 5 = hrefLit := by
  rw [show (5 : Nat) = hrefLit.length from rfl]
  exact List.take_left _ _

/-- Drop 5 over `href=` followed by anything. -/
theorem drop5_hrefLit_append (X : List Char) : (hrefLit ++ X).drop 5 = X := by
  rw [show (5 : Nat) = hrefLit.length from rfl]
  exact List.drop_left _ _

/-- No match when the character after `href=` is not a quote. -/
theorem tryMatch_none_of_bad_quote (q1 : Char) (X : List Char)
    (hq1 : isQuote q1 = false) : tryMatch (hrefLit ++ q1 :: X) = none := by
  simp only [tryMatch, take5_hrefLit_append, drop5_hrefLit_append, hq1]
  simp

/-- No match when the attribute value would be empty. -/
theorem tryMatch_none_of_empty_content (q1 : Char) (X : List Char)
    (htw : X.takeWhile (fun c => !isQuote c) = []) :
    tryMatch (hrefLit ++ q1 :: X) = none := by
  by_cases hq1 : isQuote q1 = true
  · cases hdw : X.dropWhile (fun c => !isQuote c) with
    | nil =>
      simp only [tryMatch, take5_hrefLit_append, drop5_hrefLit_append, hq1, hdw, if_true]
    | cons q2 rest2 =>
      simp only [tryMatch, take5_hrefLit_append, drop5_hrefLit_append, hq1, hdw, htw,
        if_true]
      simp
  · have : isQuote q1 = false := by simpa using hq1
    exact tryMatch_none_of_bad_quote q1 X this

/-- No match when there is no closing quote. -/
theorem tryMatch_none_of_no_closing (q1 : Char) (X : List Char)
    (hdw : X.dropWhile (fun c => !isQuote c) = []) :
    tryMatch (hrefLit ++ q1 :: X) = none := by
  by_cases hq1 : isQuote q1 = true
  · simp only [tryMatch, take5_hrefLit_append, drop5_hrefLit_append, hq1, hdw, if_true]
  · have : isQuote q1 = false := by simpa using hq1
    exact tryMatch_none_of_bad_quote q1 X this

/-- A match from an opening quote, a nonempty quote-free run and a closing
quote found by the while-scans. -/
theorem tryMatch_some_of_parts (q1 q2 : Char) (X rest2 : List Char)
    (hq1 : isQuote q1 = true) (hdw : X.dropWhile (fun c => !isQuote c) = q2 :: rest2)
    (htw : X.takeWhile (fun c => !isQuote c) ≠ []) :
    tryMatch (hrefLit ++ q1 :: X) =
      some (q1, X.takeWhile (fun c => !isQuote c), q2, rest2) := by
  simp only [tryMatch, take5_hrefLit_append, drop5_hrefLit_append, hq1, hdw, if_true]
  simp [List.isEmpty_iff, htw]

/-- The first six characters are unchanged by the click rewrite, under the
scan condition. -/
theorem hrefSub_take_le6 (tr : List Char → List Char) :
    ∀ (N : Nat) (l : List Char), l.length ≤ N → goodHtml l = true →
      ∀ n ≤ 6, (hrefSub tr l).take n = l.take n := by
  intro N
  induction N with
  | zero =>
    intro l hl _ n _
    have : l = [] := List.length_eq_zero.mp (Nat.le_zero.mp hl)
    subst this
    rfl
  | succ N ih =>
    intro l hl hg n hn
    cases l with
    | nil => rfl
    | cons c rest =>
      cases htm : tryMatch (c :: rest) with
      | none =>
        rw [hrefSub_cons_none tr c rest htm]
        cases n with
        | zero => rfl
        | succ m =>
          rw [List.take_succ_cons, List.take_succ_cons]
          rw [goodHtml_cons_none c rest htm] at hg
          rw [ih rest (by simpa using hl) hg m (by omega)]
      | some x =>
        obtain ⟨q1, u, q2, rest2⟩ := x
        obtain ⟨hs, hq1, hq2, hu, hnoq⟩ := tryMatch_some_elim htm
        rw [hrefSub_cons_some tr c rest q1 q2 u rest2 htm]
        rw [goodHtml_cons_some c rest q1 q2 u rest2 htm] at hg
        have hcond := (Bool.and_eq_true _ _).mp hg |>.1
        have hW : ∃ X, wrapLinkTag tr q1 u q2 = hrefLit ++ q1 :: (X ++ [q2]) := by
          cases hsk : skipUrl u with
          | true => exact ⟨u, wrapLinkTag_skip tr q1 q2 u hsk⟩
          | false =>
            have hni : isInfixOfB u hrefLit = false := by
              rw [hsk] at hcond
              simpa using hcond
            exact ⟨tr u, wrapLinkTag_wrap tr q1 q2 u hsk hu hnoq hq1 hni⟩
        obtain ⟨X, hX⟩ := hW
        rw [hX]
        have e1 : (hrefLit ++ q1 :: (X ++ [q2])) ++ hrefSub tr rest2 =
            (hrefLit ++ [q1]) ++ (X ++ q2 :: hrefSub tr rest2) := by simp
        have e2 : (c :: rest) = (hrefLit ++ [q1]) ++ (u ++ q2 :: rest2) := by
          rw [hs]; simp
        have h6 : n ≤ (hrefLit ++ [q1]).length := by simp [hrefLit]; omega
        rw [e1, e2, List.take_append_of_le_length h6, List.take_append_of_le_length h6]

/-- Rewriting the tail of the document cannot create a match at a position
where none was: the first six characters are preserved, an empty or
unquoted attribute stays empty or unquoted, and quote-free text is left
alone. -/
theorem tryMatch_none_step (tr : List Char → List Char) (c : Char) (rest : List Char)
    (htm : tryMatch (c :: rest) = none) (hg : goodHtml rest = true) :
    tryMatch (c :: hrefSub tr rest) = none := by
  by_cases h5 : (c :: rest).take 5 = hrefLit
  case neg =>
    have ht : (c :: hrefSub tr rest).take 5 = (c :: rest).take 5 := by
      rw [List.take_succ_cons, List.take_succ_cons,
        hrefSub_take_le6 tr rest.length rest (le_refl _) hg 4 (by omega)]
    unfold tryMatch
    rw [if_neg (by rw [ht]; exact h5)]
  case pos =>
    have hc : c = 'h' ∧ rest.take 4 = ['r', 'e', 'f', '='] := by
      rw [List.take_succ_cons] at h5
      simp only [hrefLit, List.cons.injEq] at h5
      exact h5
    obtain ⟨rfl, h4⟩ := hc
    rcases rest with _ | ⟨a1, r1⟩
    · simp at h4
    rcases r1 with _ | ⟨a2, r2⟩
    · simp [List.take_succ_cons] at h4
    rcases r2 with _ | ⟨a3, r3⟩
    · simp [List.take_succ_cons] at h4
    rcases r3 with _ | ⟨a4, rest5⟩
    · simp [List.take_succ_cons] at h4
    have h4e : a1 = 'r' ∧ a2 = 'e' ∧ a3 = 'f' ∧ a4 = '=' := by
      simp [List.take_succ_cons, List.cons.injEq] at h4
      tauto
    obtain ⟨rfl, rfl, rfl, rfl⟩ := h4e
    have hr : hrefSub tr ('r' :: 'e' :: 'f' :: '=' :: rest5) =
        'r' :: 'e' :: 'f' :: '=' :: hrefSub tr rest5 := by
      rw [hrefSub_cons_of_ne tr 'r' _ (by decide), hrefSub_cons_of_ne tr 'e' _ (by decide),
        hrefSub_cons_of_ne tr 'f' _ (by decide), hrefSub_cons_of_ne tr '=' _ (by decide)]
    have hg5 : goodHtml rest5 = true := by
      rw [goodHtml_cons_of_ne 'r' _ (by decide), goodHtml_cons_of_ne 'e' _ (by decide),
        goodHtml_cons_of_ne 'f' _ (by decide), goodHtml_cons_of_ne '=' _ (by decide)] at hg
      exact hg
    rw [hr]
    rcases rest5 with _ | ⟨q1, rest0⟩
    · exact htm
    by_cases hq1 : isQuote q1 = true
    case pos =>
      rcases rest0 with _ | ⟨b, rest0b⟩
      · rw [hrefSub_cons_of_ne tr q1 [] (quote_ne_h q1 hq1)]
        exact htm
      by_cases hb : isQuote b = true
      · rw [hrefSub_cons_of_ne tr q1 _ (quote_ne_h q1 hq1),
          hrefSub_cons_of_ne tr b _ (quote_ne_h b hb)]
        exact tryMatch_none_of_empty_content q1 (b :: hrefSub tr rest0b)
          (by rw [List.takeWhile_cons_of_neg (by simp [hb])])
      · have hbf : isQuote b = false := by
          cases hv : isQuote b
          · rfl
          · exact absurd hv hb
        have hnq : ∀ x ∈ b :: rest0b, isQuote x = false := by
          by_contra hex
          push_neg at hex
          obtain ⟨x, hx, hxq⟩ := hex
          have hxq2 : isQuote x = true := by
            cases hv : isQuote x
            · exact absurd hv hxq
            · rfl
          have hne : (b :: rest0b).dropWhile (fun c => !isQuote c) ≠ [] := by
            rw [Ne, List.dropWhile_eq_nil_iff]
            push_neg
            exact ⟨x, hx, by simp [hxq2]⟩
          rcases hdw2 : (b :: rest0b).dropWhile (fun c => !isQuote c) with _ | ⟨qq2, rr2⟩
          · exact hne hdw2
          have htwne : (b :: rest0b).takeWhile (fun c => !isQuote c) ≠ [] := by
            rw [List.takeWhile_cons_of_pos (by simp [hbf])]
            simp
          have hsome := tryMatch_some_of_parts q1 qq2 (b :: rest0b) rr2 hq1 hdw2 htwne
          have h2 : tryMatch (hrefLit ++ q1 :: (b :: rest0b)) = none := htm
          rw [hsome] at h2
          exact absurd h2 (by simp)
        rw [hrefSub_cons_of_ne tr q1 _ (quote_ne_h q1 hq1),
          hrefSub_of_no_quote tr (b :: rest0b) hnq]
        exact htm
    case neg =>
      have hqf : isQuote q1 = false := by
        cases hv : isQuote q1
        · rfl
        · exact absurd hv hq1
      by_cases hq1h : q1 = 'h'
      · have h1 : (hrefSub tr (q1 :: rest0)).take 1 = (q1 :: rest0).take 1 :=
          hrefSub_take_le6 tr (q1 :: rest0).length (q1 :: rest0) (le_refl _) hg5 1
            (by omega)
        rcases hsr : hrefSub tr (q1 :: rest0) with _ | ⟨d, Z⟩
        · rw [hsr] at h1
          simp [List.take_succ_cons] at h1
        · rw [hsr] at h1
          simp only [List.take_succ_cons, List.take_zero, List.cons.injEq,
            and_true] at h1
          rw [h1]
          exact tryMatch_none_of_bad_quote q1 Z hqf
      · rw [hrefSub_cons_of_ne tr q1 rest0 hq1h]
        exact tryMatch_none_of_bad_quote q1 (hrefSub tr rest0) hqf

/-- The rewrite equation restated over a `href=`-headed document. -/
theorem hrefSub_hrefLit_append (tr : List Char → List Char) (X : List Char)
    (q1 q2 : Char) (u rest2 : List Char)
    (h : tryMatch (hrefLit ++ X) = some (q1, u, q2, rest2)) :
    hrefSub tr (hrefLit ++ X) = wrapLinkTag tr q1 u q2 ++ hrefSub tr rest2 :=
  hrefSub_cons_some tr 'h' ('r' :: 'e' :: 'f' :: '=' :: X) q1 q2 u rest2 h

/-- Idempotence of the click pass under the scan condition, for any tracking
URL constructor producing nonempty quote-free URLs containing the tracking
path. -/
theorem hrefSub_idem (tr : List Char → List Char)
    (htr1 : ∀ u, ∀ c ∈ tr u, isQuote c = false)
    (htr2 : ∀ u, isInfixOfB "track/click".data (tr u) = true)
    (htr3 : ∀ u, tr u ≠ []) :
    ∀ (N : Nat) (l : List Char), l.length ≤ N → goodHtml l = true →
      hrefSub tr (hrefSub tr l) = hrefSub tr l := by
  intro N
  induction N with
  | zero =>
    intro l hl _
    have : l = [] := List.length_eq_zero.mp (Nat.le_zero.mp hl)
    subst this
    rfl
  | succ N ih =>
    intro l hl hg
    cases l with
    | nil => rfl
    | cons c rest =>
      cases htm : tryMatch (c :: rest) with
      | none =>
        rw [hrefSub_cons_none tr c rest htm]
        have hg2 : goodHtml rest = true := by
          rw [goodHtml_cons_none c rest htm] at hg
          exact hg
        rw [hrefSub_cons_none tr c (hrefSub tr rest)
          (tryMatch_none_step tr c rest htm hg2)]
        rw [ih rest (by simpa using hl) hg2]
      | some x =>
        obtain ⟨q1, u, q2, rest2⟩ := x
        obtain ⟨hs, hq1, hq2, hu, hnoq⟩ := tryMatch_some_elim htm
        rw [goodHtml_cons_some c rest q1 q2 u rest2 htm] at hg
        obtain ⟨hcond, hg2⟩ := (Bool.and_eq_true _ _).mp hg
        obtain ⟨hlen, hul⟩ := tryMatch_some_length htm
        have hrest2N : rest2.length ≤ N := by
          have hx : (c :: rest).length = rest.length + 1 := rfl
          omega
        rw [hrefSub_cons_some tr c rest q1 q2 u rest2 htm]
        cases hsk : skipUrl u with
        | true =>
          rw [wrapLinkTag_skip tr q1 q2 u hsk]
          have e1 : (hrefLit ++ q1 :: (u ++ [q2])) ++ hrefSub tr rest2 =
              hrefLit ++ q1 :: (u ++ q2 :: hrefSub tr rest2) := by simp
          rw [e1]
          rw [hrefSub_hrefLit_append tr (q1 :: (u ++ q2 :: hrefSub tr rest2)) q1 q2 u
            (hrefSub tr rest2)
            (tryMatch_build q1 q2 u (hrefSub tr rest2) hq1 hq2 hu hnoq)]
          rw [wrapLinkTag_skip tr q1 q2 u hsk, ih rest2 hrest2N hg2]
          simp
        | false =>
          have hni : isInfixOfB u hrefLit = false := by
            rw [hsk] at hcond
            simpa using hcond
          rw [wrapLinkTag_wrap tr q1 q2 u hsk hu hnoq hq1 hni]
          have e1 : (hrefLit ++ q1 :: (tr u ++ [q2])) ++ hrefSub tr rest2 =
              hrefLit ++ q1 :: (tr u ++ q2 :: hrefSub tr rest2) := by simp
          rw [e1]
          rw [hrefSub_hrefLit_append tr (q1 :: (tr u ++ q2 :: hrefSub tr rest2)) q1 q2
            (tr u) (hrefSub tr rest2)
            (tryMatch_build q1 q2 (tr u) (hrefSub tr rest2) hq1 hq2 (htr3 u)
              (htr1 u))]
          have hskT : skipUrl (tr u) = true := by
            simp [skipUrl, htr2 u]
          rw [wrapLinkTag_skip tr q1 q2 (tr u) hskT, ih rest2 hrest2N hg2]
          simp

/-- Hexadecimal digits are not quote characters. -/
theorem hexDigit_no_quote (n : Nat) : isQuote (hexDigit n) = false := by
  have hall : ∀ x ∈ ("0123456789ABCDEF" : String).data, isQuote x = false := by decide
  unfold hexDigit
  rw [List.getD_eq_getElem?_getD]
  rcases hget : ("0123456789ABCDEF" : String).data[n]? with _ | x
  · simp only [Option.getD_none]
    decide
  · have hx : x ∈ ("0123456789ABCDEF" : String).data := by
      apply List.get?_mem
      rw [List.get?_eq_getElem?]
      exact hget
    simp only [Option.getD_some]
    exact hall x hx

/-- The percent-encoding of a character contains no quote characters. -/
theorem quotePlusChar_no_quote (c : Char) : ∀ d ∈ quotePlusChar c, isQuote d = false := by
  intro d hd
  unfold quotePlusChar at hd
  by_cases h1 : (c.isAlphanum || c == '_' || c == '.' || c == '-' || c == '~') = true
  · rw [if_pos h1] at hd
    simp only [List.mem_singleton] at hd
    subst hd
    cases hv : isQuote d
    · rfl
    · exfalso
      rcases (Bool.or_eq_true _ _).mp hv with h | h
      · have he : d = Char.ofNat 34 := by simpa using h
        subst he
        exact absurd h1 (by decide)
      · have he : d = Char.ofNat 39 := by simpa using h
        subst he
        exact absurd h1 (by decide)
  · rw [if_neg h1] at hd
    by_cases h2 : (c == ' ') = true
    · rw [if_pos h2] at hd
      simp only [List.mem_singleton] at hd
      subst hd
      decide
    · rw [if_neg h2] at hd
      rw [List.mem_flatten] at hd
      obtain ⟨l2, hl2, hdl2⟩ := hd
      rw [List.mem_map] at hl2
      obtain ⟨b, _, rfl⟩ := hl2
      simp only [percentByte, List.mem_cons, List.mem_singleton,
        List.not_mem_nil, or_false] at hdl2
      rcases hdl2 with rfl | rfl | rfl
      · decide
      · exact hexDigit_no_quote _
      · exact hexDigit_no_quote _

/-- The percent-encoding of a string contains no quote characters. -/
theorem quotePlus_no_quote (l : List Char) : ∀ d ∈ quotePlus l, isQuote d = false := by
  intro d hd
  unfold quotePlus at hd
  rw [List.mem_flatten] at hd
  obtain ⟨l2, hl2, hdl2⟩ := hd
  rw [List.mem_map] at hl2
  obtain ⟨c, _, rfl⟩ := hl2
  exact quotePlusChar_no_quote c d hdl2

/-- A tracking URL contains no quote characters when the configured base URL
contains none. -/
theorem wrap_url_no_quote (cid rid token base : String)
    (hbase : ∀ c ∈ base.data, isQuote c = false) (u : List Char) :
    ∀ d ∈ wrap_url_for_tracking cid rid token base u, isQuote d = false := by
  intro d hd
  unfold wrap_url_for_tracking urlencodeParams at hd
  simp only [List.mem_append, or_assoc] at hd
  rcases hd with h | h | h | h | h | h | h | h | h | h
  · exact hbase d h
  · exact (by decide : ∀ x ∈ ("/v1/track/click?" : String).data, isQuote x = false) d h
  · exact (by decide : ∀ x ∈ ("c=" : String).data, isQuote x = false) d h
  · exact quotePlus_no_quote _ d h
  · exact (by decide : ∀ x ∈ ("&r=" : String).data, isQuote x = false) d h
  · exact quotePlus_no_quote _ d h
  · exact (by decide : ∀ x ∈ ("&t=" : String).data, isQuote x = false) d h
  · exact quotePlus_no_quote _ d h
  · exact (by decide : ∀ x ∈ ("&u=" : String).data, isQuote x = false) d h
  · exact quotePlus_no_quote _ d h

/-- A tracking URL contains the tracking path, which is exactly what the
skip test of `wrap_link` looks for. -/
theorem wrap_url_guard (cid rid token base : String) (u : List Char) :
    isInfixOfB "track/click".data (wrap_url_for_tracking cid rid token base u) = true := by
  rw [isInfixOfB_iff]
  unfold wrap_url_for_tracking
  have h1 : ("track/click" : String).data <:+: ("/v1/track/click?" : String).data := by
    decide
  have h2 : ("/v1/track/click?" : String).data <:+:
      base.data ++ ("/v1/track/click?" : String).data ++ urlencodeParams cid rid token u :=
    ⟨base.data, urlencodeParams cid rid token u, rfl⟩
  exact h1.trans h2

/-- A tracking URL is never empty. -/
theorem wrap_url_ne_nil (cid rid token base : String) (u : List Char) :
    wrap_url_for_tracking cid rid token base u ≠ [] := by
  unfold wrap_url_for_tracking
  intro h
  rcases List.append_eq_nil.mp h with ⟨h1, _⟩
  rcases List.append_eq_nil.mp h1 with ⟨_, h4⟩
  exact absurd h4 (by decide)

/-- C9 counterexample: on the anchor `<a href="h">` the second application of
click-tracking injection changes the document again.  wrap_link rewrites its
match with `full_tag.replace(url, tracked_url, 1)`; for the URL "h" the first
occurrence of "h" in `href="h"` is the h of `href`, so the first pass emits
`<tracked>ref="h"` whose tail `...&u=h` recombines with `ref="h"` into a
fresh `href="h"` that the second pass wraps once more. -/
theorem inject_click_tracking_not_idempotent_cex :
    inject_tracking_into_html "c1" "r1" "t1" "http://api" true false
        (inject_tracking_into_html "c1" "r1" "t1" "http://api" true false
          ("<a href=\x22h\x22>" : String).data) ≠
      inject_tracking_into_html "c1" "r1" "t1" "http://api" true false
        ("<a href=\x22h\x22>" : String).data := by
  decide

/-- C9 amended: click-tracking injection is idempotent on every document in
which no rewritten href value is a substring of the literal `href=` (any real
URL, e.g. one with a scheme, satisfies this; the scan condition `goodHtml`
states it), provided the configured api base URL contains no quote
character: the second application leaves every already-wrapped link unchanged
because the injector detects its own tracking-path substring. -/
theorem inject_click_tracking_idempotent (cid rid token base : String) (html : List Char)
    (hbase : ∀ c ∈ base.data, isQuote c = false) (hgood : goodHtml html = true) :
    inject_tracking_into_html cid rid token base true false
        (inject_tracking_into_html cid rid token base true false html) =
      inject_tracking_into_html cid rid token base true false html := by
  have heq : ∀ l : List Char, inject_tracking_into_html cid rid token base true false l =
      hrefSub (wrap_url_for_tracking cid rid token base) l := by
    intro l
    simp [inject_tracking_into_html]
  simp only [heq]
  exact hrefSub_idem (wrap_url_for_tracking cid rid token base)
    (wrap_url_no_quote cid rid token base hbase)
    (wrap_url_guard cid rid token base)
    (wrap_url_ne_nil cid rid token base)
    html.length html (le_refl _) hgood

/-- Witness for C9 amended: a document with one ordinary absolute link is
wrapped once and the second application leaves it unchanged. -/
theorem inject_click_tracking_idempotent_witness :
    inject_tracking_into_html "c1" "r1" "t1" "http://api" true false
        (inject_tracking_into_html "c1" "r1" "t1" "http://api" true false
          ("<a href=\x22https://example.com/page\x22>x</a>" : String).data) =
      inject_tracking_into_html "c1" "r1" "t1" "http://api" true false
        ("<a href=\x22https://example.com/page\x22>x</a>" : String).data :=
  inject_click_tracking_idempotent "c1" "r1" "t1" "http://api"
    ("<a href=\x22https://example.com/page\x22>x</a>" : String).data
    (by decide) (by decide)

end EmailCampaign
